import Mathlib

/-!
Verification of the sarvam-qa-dashboard core pipeline: audio chunking
(`split_audio`), transcript normalization and speaker-timing aggregation
(`_parse_transcriptions`), conversation serialization, and the LLM grading
response parser (`grade_call`).

The repository contains two engine variants with the relevant logic:
`src/sarvam_engine.py` (class `CallAnalytics`) and
`src/SarvamTest/sarvam_engine.py` (class `SarvamEngine`).  Both are embedded
below.  Python strings are modelled by Lean `String` (a wrapper around
`List Char`), with Python's `str.split`, `in`, `str.strip`, `str.endswith`
re-implemented structurally so that every definition evaluates inside the
kernel.  Python floats (timestamps in seconds) are modelled by `ℚ`; the
properties at issue (clamping at zero, summation, permutation invariance)
do not depend on rounding.  `json.loads` is an external library call and is
modelled as an explicit function parameter `jloads : String → Option JsonVal`
(`none` models a raised `JSONDecodeError`).
-/

/-! ### Python string primitives -/

/-- Whether the character list `l` starts with the character list `p`. -/
def listStartsWith : List Char → List Char → Bool
  | _, [] => true
  | [], _ :: _ => false
  | c :: cs, p :: ps => c == p && listStartsWith cs ps

/-- Python's substring test `sub in s`, on character lists: some suffix of
`hay` starts with `sub`. -/
def containsSub (hay sub : List Char) : Bool :=
  match hay with
  | [] => listStartsWith [] sub
  | _ :: cs => listStartsWith hay sub || containsSub cs sub

/-- Python's `sub in s` on strings. -/
def pyIn (sub s : String) : Bool :=
  containsSub s.data sub.data

/-- Helper for `pySplit`: structural recursion on a fuel bound (any fuel
`≥` the length of the remaining list gives Python's exact behaviour).
Splits at each leftmost non-overlapping occurrence of `sep`. -/
def pySplitAux (sep : List Char) : Nat → List Char → List (List Char)
  | _, [] => [[]]
  | 0, cs => [cs]
  | fuel + 1, c :: cs =>
    if sep ≠ [] && listStartsWith (c :: cs) sep then
      [] :: pySplitAux sep fuel (List.drop (sep.length - 1) cs)
    else
      match pySplitAux sep fuel cs with
      | [] => [[c]]
      | h :: t => (c :: h) :: t

/-- Python's `s.split(sep)` for a non-empty separator `sep`. -/
def pySplit (s sep : String) : List String :=
  (pySplitAux sep.data s.data.length s.data).map String.mk

/-- Python's `s.split(sep)[i]`; the source only indexes after establishing
`sep in s`, so the default is never reached there. -/
def pySplitGet (s sep : String) (i : Nat) : String :=
  (pySplit s sep).getD i ""

/-- Python's `s.strip()` (with ASCII whitespace): drop whitespace from both
ends. -/
def pyStrip (s : String) : String :=
  String.mk (((s.data.dropWhile Char.isWhitespace).reverse.dropWhile
    Char.isWhitespace).reverse)

/-- Python's `s.endswith(suffix)`. -/
def pyEndsWith (s suf : String) : Bool :=
  listStartsWith s.data.reverse suf.data.reverse

/-! ### JSON values

A minimal model of the values returned by `json.loads`. -/

/-- A parsed JSON value. -/
inductive JsonVal : Type where
  | null : JsonVal
  | bool : Bool → JsonVal
  | num : ℚ → JsonVal
  | str : String → JsonVal
  | arr : List JsonVal → JsonVal
  | obj : List (String × JsonVal) → JsonVal

/-- Lookup of a key in a JSON object's key/value list (Python `dict`
lookup; `json.loads` produces unique keys). -/
def jlookup : List (String × JsonVal) → String → Option JsonVal
  | [], _ => none
  | (k, v) :: rest, key => if k = key then some v else jlookup rest key

/-- Python's `d.get(key, default)` on a JSON object value; `none` on a
non-object models the `AttributeError` raised by `.get` on a non-dict. -/
def jget : JsonVal → String → Option JsonVal
  | .obj kvs, key => jlookup kvs key
  | _, _ => none

/-! ### Grading response parsers (`grade_call`)

Two variants exist in the repository.

`SarvamEngine.grade_call` (src/SarvamTest/sarvam_engine.py lines 553-572):

    try:
        grading_result = json.loads(response_text)
    except json.JSONDecodeError:
        if "```json" in response_text:
            json_str = response_text.split("```json")[1].split("```")[0].strip()
            grading_result = json.loads(json_str)
        elif "```" in response_text:
            json_str = response_text.split("```")[1].split("```")[0].strip()
            grading_result = json.loads(json_str)
        else:
            raise ValueError("Could not parse grading response as JSON")
    result = dict(status="success",
                  grades=grading_result.get("grades", []),
                  overall_score=grading_result.get("overall_score", 0),
                  summary=grading_result.get("summary", ""))

`CallAnalytics.grade_call` (src/sarvam_engine.py lines 385-392):

    content = response.choices[0].message.content
    if "```json" in content:
        content = content.split("```json")[1].split("```")[0]
    elif "```" in content:
        content = content.split("```")[0]
    return json.loads(content.strip())

All failures (exceptions) are caught by an enclosing `except` and reported
as a failure result, modelled by `none`. -/

/-- The JSON value recovered by `SarvamEngine.grade_call`
(src/SarvamTest/sarvam_engine.py lines 553-565): direct parse first, then
the interior of a ` ```json `-tagged fence, then the interior of a generic
` ``` ` fence, else failure. -/
def sarvamGradeParse (jloads : String → Option JsonVal) (text : String) :
    Option JsonVal :=
  match jloads text with
  | some v => some v
  | none =>
    if pyIn "```json" text then
      jloads (pyStrip (pySplitGet (pySplitGet text "```json" 1) "```" 0))
    else if pyIn "```" text then
      jloads (pyStrip (pySplitGet (pySplitGet text "```" 1) "```" 0))
    else
      none

/-- The grading result assembled by `SarvamEngine.grade_call`: the three
payload fields of the returned success dict. -/
structure GradeResult : Type where
  grades : JsonVal
  overall_score : JsonVal
  summary : JsonVal

/-- Result construction of `SarvamEngine.grade_call`
(src/SarvamTest/sarvam_engine.py lines 567-572): `.get` with permissive
defaults on the parsed object; a non-object parse raises (`none`). -/
def sarvamBuildResult : JsonVal → Option GradeResult
  | .obj kvs =>
    some
      { grades := (jlookup kvs "grades").getD (.arr [])
        overall_score := (jlookup kvs "overall_score").getD (.num 0)
        summary := (jlookup kvs "summary").getD (.str "") }
  | _ => none

/-- Full parse-and-build pipeline of `SarvamEngine.grade_call` after the
LLM response `text` is received. -/
def sarvamGradeCall (jloads : String → Option JsonVal) (text : String) :
    Option GradeResult :=
  (sarvamGradeParse jloads text).bind sarvamBuildResult

/-- The value returned by `CallAnalytics.grade_call`
(src/sarvam_engine.py lines 385-392): fence stripping *without* a prior
direct-parse attempt, where the generic-fence branch keeps
`content.split("```")[0]` — the text *before* the first fence — and the
parsed value is returned unchanged (no defaults). -/
def callAnalyticsGradeCall (jloads : String → Option JsonVal)
    (text : String) : Option JsonVal :=
  let content :=
    if pyIn "```json" text then
      pySplitGet (pySplitGet text "```json" 1) "```" 0
    else if pyIn "```" text then
      pySplitGet text "```" 0
    else text
  jloads (pyStrip content)

/-- Modelled from the spec (§4.5): the claimed parsing order — direct
parse of the whole text, else interior of a JSON-tagged fence, else
interior of any fence, else terminal failure. -/
def claimedGradeParse (jloads : String → Option JsonVal) (text : String) :
    Option JsonVal :=
  match jloads text with
  | some v => some v
  | none =>
    if pyIn "```json" text then
      jloads (pyStrip (pySplitGet (pySplitGet text "```json" 1) "```" 0))
    else if pyIn "```" text then
      jloads (pyStrip (pySplitGet (pySplitGet text "```" 1) "```" 0))
    else
      none

/-- A concrete stand-in for `json.loads`, agreeing with the real parser on
every string it is applied to in the concrete theorems below: exactly the
text `"\x7b\x7d"` (an empty JSON object) parses; prose such as
`"Here is the grading:"` and full fenced responses do not. -/
def jloadsLit : String → Option JsonVal :=
  fun s => if s = "\x7b\x7d" then some (.obj []) else none

-- sanity examples (concrete evaluation of the embedded string primitives)
/-! ### Transcript normalization (`_parse_transcriptions`)

`CallAnalytics._parse_transcriptions` (src/sarvam_engine.py lines 195-239)
and `SarvamEngine._parse_transcriptions`
(src/SarvamTest/sarvam_engine.py lines 280-328) are identical in logic:

    all_entries = []
    for fname in sorted(os.listdir(raw_output_dir)):
        if not fname.endswith(".json"): continue
        data = json.load(open(...))
        diarized = data.get("diarized_transcript", {})
        entries = diarized.get("entries", [])
        all_entries.extend(entries)
        if not entries and "transcript" in data:
            all_entries.append(dict(speaker_id="SPEAKER_00",
                                    transcript=data["transcript"],
                                    start_time_seconds=0.0,
                                    end_time_seconds=0.0))
    conversation_lines = []; speaker_times = {}
    for entry in all_entries:
        speaker = entry.get("speaker_id", "UNKNOWN")
        text = entry.get("transcript", "").strip()
        start = entry.get("start_time_seconds", 0.0)
        end = entry.get("end_time_seconds", 0.0)
        duration = max(end - start, 0.0)
        conversation_lines.append(f"..")     -- speaker ++ ": " ++ text
        speaker_times[speaker] = speaker_times.get(speaker, 0.0) + duration
    write "\n".join(conversation_lines) + "\n"

The directory listing is modelled as a list of (file name, parsed JSON
document) pairs; `sorted` is modelled by Mathlib's stable `insertionSort`
on the file name (Python's `sorted` is a stable ascending sort, so the two
agree).  A provider document is modelled by the two places the code reads:
`diarized_transcript.entries` (absent at either nesting level ↦ `none`)
and the top-level `transcript` key (`some ""` models a present-but-empty
string, `none` an absent key). -/

/-- One raw diarized entry of a provider result document; `none` models an
absent key (read with `.get` defaults by the code). -/
structure RawEntry : Type where
  speaker_id : Option String
  transcript : Option String
  start_time_seconds : Option ℚ
  end_time_seconds : Option ℚ
deriving DecidableEq

/-- One provider result document, as read by `_parse_transcriptions`. -/
structure ProviderDoc : Type where
  diarized_entries : Option (List RawEntry)
  transcript : Option String
deriving DecidableEq

/-- The fallback entry appended when a document has no diarized entries
but carries a top-level `transcript` (lines 211-216 of
src/sarvam_engine.py). -/
def fallbackEntry (t : String) : RawEntry :=
  { speaker_id := some "SPEAKER_00"
    transcript := some t
    start_time_seconds := some 0
    end_time_seconds := some 0 }

/-- The entries one document contributes: its diarized entries
(`extend`), then — only when those are empty and the `transcript` key is
present — the one synthesized fallback entry (`append`). -/
def docEntries (d : ProviderDoc) : List RawEntry :=
  let entries := d.diarized_entries.getD []
  entries ++
    (match entries, d.transcript with
      | [], some t => [fallbackEntry t]
      | _, _ => [])

/-- The first loop of `_parse_transcriptions`: fold over the (already
sorted) directory listing, skipping non-`.json` names and extending the
accumulator `all_entries` with each document's contribution. -/
def collectEntries : List (String × ProviderDoc) → List RawEntry →
    List RawEntry
  | [], acc => acc
  | (fname, d) :: rest, acc =>
    if pyEndsWith fname ".json" then collectEntries rest (acc ++ docEntries d)
    else collectEntries rest acc

/-- Python's string comparison `s <= t` on character lists: lexicographic
by code point. -/
def leChars : List Char → List Char → Bool
  | [], _ => true
  | _ :: _, [] => false
  | a :: as, b :: bs =>
    if a < b then true else if b < a then false else leChars as bs

/-- Python's `s <= t` on strings (the order used by `sorted`). -/
def pyStrLe (s t : String) : Bool :=
  leChars s.data t.data

/-- The sorted directory listing (`sorted(os.listdir(...))`): ascending
lexical order of file name.  Python's `sorted` is a stable ascending
sort, as is Mathlib's `insertionSort`, so the two agree exactly. -/
def sortFiles (files : List (String × ProviderDoc)) :
    List (String × ProviderDoc) :=
  files.insertionSort (fun a b => pyStrLe a.1 b.1 = true)

/-- `all_entries` for a directory listing `files`. -/
def allEntries (files : List (String × ProviderDoc)) : List RawEntry :=
  collectEntries (sortFiles files) []

/-- `entry.get("speaker_id", "UNKNOWN")`. -/
def speakerOf (e : RawEntry) : String := e.speaker_id.getD "UNKNOWN"

/-- `entry.get("transcript", "").strip()`. -/
def textOf (e : RawEntry) : String := pyStrip (e.transcript.getD "")

/-- `entry.get("start_time_seconds", 0.0)`. -/
def startOf (e : RawEntry) : ℚ := e.start_time_seconds.getD 0

/-- `entry.get("end_time_seconds", 0.0)`. -/
def endOf (e : RawEntry) : ℚ := e.end_time_seconds.getD 0

/-- `duration = max(end - start, 0.0)` (line 226 of src/sarvam_engine.py). -/
def durationOf (e : RawEntry) : ℚ := max (endOf e - startOf e) 0

/-- The conversation line an entry produces: `f"{speaker}: {text}"`. -/
def lineOf (e : RawEntry) : String := speakerOf e ++ ": " ++ textOf e

/-- `speaker_times[speaker] = speaker_times.get(speaker, 0.0) + duration`:
Python dict update, preserving insertion order of keys (first occurrence),
appending a new key at the end. -/
def bumpTime : List (String × ℚ) → String → ℚ → List (String × ℚ)
  | [], s, d => [(s, d)]
  | (k, v) :: rest, s, d =>
    if k = s then (k, v + d) :: rest else (k, v) :: bumpTime rest s d

/-- Reading a speaker's total from the timing map (`.get(speaker, 0.0)`). -/
def lookupTime : List (String × ℚ) → String → ℚ
  | [], _ => 0
  | (k, v) :: rest, s => if k = s then v else lookupTime rest s

/-- The second loop of `_parse_transcriptions`: one pass over
`all_entries`, appending a conversation line and bumping the speaker's
cumulative time for each entry. -/
def buildLoop : List RawEntry → List String × List (String × ℚ) →
    List String × List (String × ℚ)
  | [], st => st
  | e :: rest, (lines, times) =>
    buildLoop rest
      (lines ++ [lineOf e], bumpTime times (speakerOf e) (durationOf e))

/-- `conversation_lines` after the loop. -/
def conversationLines (es : List RawEntry) : List String :=
  (buildLoop es ([], [])).1

/-- `speaker_times` after the loop (the SpeakerTimingMap). -/
def speakerTimes (es : List RawEntry) : List (String × ℚ) :=
  (buildLoop es ([], [])).2

/-- Python's `sep.join(xs)`. -/
def pyJoin (sep : String) : List String → String
  | [] => ""
  | h :: t => t.foldl (fun acc x => acc ++ sep ++ x) h

/-- The serialized conversation text: `"\n".join(conversation_lines)`
followed by a trailing `"\n"` (lines 232-234 of src/sarvam_engine.py). -/
def conversationText (es : List RawEntry) : String :=
  pyJoin "\n" (conversationLines es) ++ "\n"

/-- The whole `_parse_transcriptions` data transformation: from the raw
directory listing to the conversation text and the timing map. -/
def parseTranscriptions (files : List (String × ProviderDoc)) :
    String × List (String × ℚ) :=
  (conversationText (allEntries files), speakerTimes (allEntries files))

/-! ### Audio chunking (`split_audio`)

`split_audio` (src/sarvam_engine.py lines 97-122, identical in
src/SarvamTest/sarvam_engine.py lines 101-145):

    audio = AudioSegment.from_file(audio_path)
    if len(audio) <= chunk_duration_ms:
        return [audio_path]
    ...
    base_name = os.path.splitext(os.path.basename(audio_path))[0]
    ext = os.path.splitext(audio_path)[1] or ".wav"
    chunks = []
    for i, start in enumerate(range(0, len(audio), chunk_duration_ms)):
        chunk = audio[start : start + chunk_duration_ms]
        chunk_path = os.path.join(output_dir, f"..._chunk{i:03d}{ext}")
        chunk.export(chunk_path)
        chunks.append(chunk_path)
    return chunks

The audio object is modelled by its length in milliseconds (`pydub`
addresses `AudioSegment` slices in milliseconds, so
`len(audio[a : a + D]) = min(D, len - a)` for `a < len`).  The model
returns both the list the function returns and the list of files it
exports, as (path, exported-duration) pairs. -/

/-- Python's `range(start, stop, step)` for a positive step, via a fuel
bound (any fuel `≥ stop - start` gives the exact value when `step ≥ 1`). -/
def pyRangeAux (step : Nat) : Nat → Nat → Nat → List Nat
  | 0, _, _ => []
  | fuel + 1, start, stop =>
    if start < stop then start :: pyRangeAux step fuel (start + step) stop
    else []

/-- Python's `range(start, stop, step)` for a positive step. -/
def pyRange (start stop step : Nat) : List Nat :=
  pyRangeAux step (stop - start) start stop

/-- Python's `s.rfind(c)`: index of the last occurrence of the character
`c`, or `-1` when absent. -/
def rfindIdx (cs : List Char) (c : Char) : Int :=
  match cs.reverse.findIdx? (· == c) with
  | some j => (cs.length : Int) - 1 - j
  | none => -1

/-- `os.path.basename` (posix): everything after the last `/`. -/
def osBasename (p : String) : String :=
  String.mk (p.data.drop (rfindIdx p.data '/' + 1).toNat)

/-- `os.path.splitext` (posix): split at the last `.` that lies after the
last `/` and has some non-dot character between the two (leading dots of
the file name do not start an extension). -/
def osSplitext (p : String) : String × String :=
  let cs := p.data
  let sepIndex := rfindIdx cs '/'
  let dotIndex := rfindIdx cs '.'
  if sepIndex < dotIndex then
    let fstart := (sepIndex + 1).toNat
    let dn := dotIndex.toNat
    if ((cs.drop fstart).take (dn - fstart)).any (fun c => c != '.') then
      (String.mk (cs.take dn), String.mk (cs.drop dn))
    else (p, "")
  else (p, "")

/-- Python's `f"{i:03d}"`: decimal digits, left-padded with `0` to width
three. -/
def pad3 (n : Nat) : String :=
  let s := Nat.repr n
  if s.length < 3 then String.mk (List.replicate (3 - s.length) '0') ++ s
  else s

/-- `ext = os.path.splitext(audio_path)[1] or ".wav"`. -/
def chunkExt (audioPath : String) : String :=
  if (osSplitext audioPath).2 = "" then ".wav" else (osSplitext audioPath).2

/-- The path of chunk number `i` of `audioPath` inside `outputDir`:
`os.path.join(output_dir, f"{base_name}_chunk{i:03d}{ext}")`. -/
def chunkPath (outputDir audioPath : String) (i : Nat) : String :=
  outputDir ++ "/" ++ (osSplitext (osBasename audioPath)).1 ++ "_chunk" ++
    pad3 i ++ chunkExt audioPath

/-- `split_audio`, modelled on (audio length in ms, source path, chunk
bound in ms, output directory).  First component: the returned list of
paths.  Second component: the files written (`chunk.export`), as
(path, exported duration in ms) pairs — empty when no split happens. -/
def split_audio (audioLen : Nat) (audioPath : String)
    (chunkDurationMs : Nat) (outputDir : String) :
    List String × List (String × Nat) :=
  if audioLen ≤ chunkDurationMs then ([audioPath], [])
  else
    let chunks :=
      (pyRange 0 audioLen chunkDurationMs).enum.map
        (fun p =>
          (chunkPath outputDir audioPath p.1,
            min chunkDurationMs (audioLen - p.2)))
    (chunks.map Prod.fst, chunks)

/-! ### Concrete inputs used in the claim theorems -/

/-- The two-document end-to-end scenario of the spec (§8): first document
one diarized entry (SPEAKER_00, "hello", 0.0, 1.5), second document one
diarized entry (SPEAKER_01, "hi there", 0.0, 2.0). -/
def demoFiles : List (String × ProviderDoc) :=
  [("result_0.json",
    { diarized_entries :=
        some [{ speaker_id := some "SPEAKER_00"
                transcript := some "hello"
                start_time_seconds := some 0
                end_time_seconds := some 1.5 }]
      transcript := none }),
   ("result_1.json",
    { diarized_entries :=
        some [{ speaker_id := some "SPEAKER_01"
                transcript := some "hi there"
                start_time_seconds := some 0
                end_time_seconds := some 2 }]
      transcript := none })]

/-- The first demo entry: (SPEAKER_00, "hello", 0.0, 1.5). -/
def demoEntry0 : RawEntry :=
  { speaker_id := some "SPEAKER_00"
    transcript := some "hello"
    start_time_seconds := some 0
    end_time_seconds := some 1.5 }

/-- The second demo entry: (SPEAKER_01, "hi there", 0.0, 2.0). -/
def demoEntry1 : RawEntry :=
  { speaker_id := some "SPEAKER_01"
    transcript := some "hi there"
    start_time_seconds := some 0
    end_time_seconds := some 2 }

/-- A concrete entry with an inverted interval: start 2, end 1. -/
def invEntry : RawEntry :=
  { speaker_id := some "A"
    transcript := some "x"
    start_time_seconds := some 2
    end_time_seconds := some 1 }

/-- A document with an empty diarized-entries list and a present but
empty top-level `transcript` string. -/
def emptyDiarizedDoc : ProviderDoc :=
  { diarized_entries := some [], transcript := some "" }

/-- Like `emptyDiarizedDoc` but with the diarized structure absent
entirely. -/
def absentDiarizedDoc : ProviderDoc :=
  { diarized_entries := none, transcript := some "" }

/-! ### Sanity checks: concrete evaluation of the embedded primitives -/

example : pyIn "```" "see\n```\nx\n```" = true := by decide
example : pyIn "```json" "see\n```\nx\n```" = false := by decide
example : pySplit "a``b``c" "``" = ["a", "b", "c"] := by decide
example : pyStrip "  hi \n" = "hi" := by decide
example :
    sarvamGradeParse jloadsLit "Here is the grading:\n```\n\x7b\x7d\n```" =
      some (JsonVal.obj []) := rfl
example :
    callAnalyticsGradeCall jloadsLit "Here is the grading:\n```\n\x7b\x7d\n```" =
      none := rfl

/-! ### Normalization lemmas -/

/-- Unrolling `collectEntries`: the loop appends, in listing order, the
contribution of every `.json` file to the left accumulator. -/
theorem collectEntries_eq (files : List (String × ProviderDoc))
    (acc : List RawEntry) :
    collectEntries files acc =
      acc ++ (files.filter (fun p => pyEndsWith p.1 ".json")).flatMap
        (fun p => docEntries p.2) := by
  induction files generalizing acc with
  | nil => simp [collectEntries]
  | cons hd tl ih =>
    obtain ⟨fname, d⟩ := hd
    by_cases h : pyEndsWith fname ".json"
    · simp [collectEntries, h, ih, List.filter_cons, List.append_assoc]
    · simp [collectEntries, h, ih, List.filter_cons]

/-- Unrolling `buildLoop`: lines accumulate `lineOf` images in order and
the times component folds `bumpTime` over the entries. -/
theorem buildLoop_eq (es : List RawEntry) (lines : List String)
    (times : List (String × ℚ)) :
    buildLoop es (lines, times) =
      (lines ++ es.map lineOf,
        es.foldl (fun t e => bumpTime t (speakerOf e) (durationOf e)) times) := by
  induction es generalizing lines times with
  | nil => simp [buildLoop]
  | cons e rest ih => simp [buildLoop, ih, List.append_assoc]

/-- `bumpTime` changes exactly the bumped key's reading, by the bumped
amount. -/
theorem lookupTime_bumpTime (times : List (String × ℚ)) (s : String)
    (d : ℚ) (k : String) :
    lookupTime (bumpTime times s d) k =
      lookupTime times k + (if s = k then d else 0) := by
  induction times with
  | nil =>
    by_cases h : s = k <;> simp [bumpTime, lookupTime, h]
  | cons hd tl ih =>
    obtain ⟨k', v⟩ := hd
    by_cases h1 : k' = s
    · subst h1
      by_cases h2 : k' = k
      · subst h2
        simp [bumpTime, lookupTime]
      · simp [bumpTime, lookupTime, h2]
    · by_cases h2 : k' = k
      · subst h2
        have hs : s ≠ k' := fun h => h1 h.symm
        simp [bumpTime, lookupTime, h1, hs]
      · simp [bumpTime, lookupTime, h1, h2, ih]

/-- A speaker's reading of the folded timing map is its reading of the
initial map plus the sum of the durations of that speaker's entries. -/
theorem lookupTime_foldl (es : List RawEntry) (times : List (String × ℚ))
    (k : String) :
    lookupTime
        (es.foldl (fun t e => bumpTime t (speakerOf e) (durationOf e)) times)
        k =
      lookupTime times k +
        ((es.filter (fun e => speakerOf e == k)).map durationOf).sum := by
  induction es generalizing times with
  | nil => simp
  | cons e rest ih =>
    by_cases h : speakerOf e = k
    · simp [List.filter_cons, h, ih, lookupTime_bumpTime]
      ring
    · simp [List.filter_cons, h, ih, lookupTime_bumpTime]

/-- A speaker's total in the SpeakerTimingMap is the sum of the durations
of that speaker's entries. -/
theorem lookupTime_speakerTimes (es : List RawEntry) (k : String) :
    lookupTime (speakerTimes es) k =
      ((es.filter (fun e => speakerOf e == k)).map durationOf).sum := by
  simp [speakerTimes, buildLoop_eq, lookupTime_foldl, lookupTime]

/-- Every duration is non-negative (it is clamped with `max · 0`). -/
theorem durationOf_nonneg (e : RawEntry) : 0 ≤ durationOf e :=
  le_max_right _ _

/-- Every value stored in the timing map built by the fold is
non-negative, provided the initial map's values are. -/
theorem bumpTime_nonneg (times : List (String × ℚ)) (s : String) (d : ℚ)
    (hd : 0 ≤ d) (h : ∀ p ∈ times, 0 ≤ p.2) :
    ∀ p ∈ bumpTime times s d, 0 ≤ p.2 := by
  induction times with
  | nil =>
    intro p hp
    simp [bumpTime] at hp
    subst hp
    exact hd
  | cons hd' tl ih =>
    obtain ⟨k, v⟩ := hd'
    intro p hp
    by_cases hk : k = s
    · simp [bumpTime, hk] at hp
      rcases hp with hp | hp
      · subst hp
        have hv : 0 ≤ v := h (s, v) (by simp [hk])
        positivity
      · exact h p (List.mem_cons_of_mem _ hp)
    · simp only [bumpTime, if_neg hk, List.mem_cons] at hp
      rcases hp with hp | hp
      · subst hp
        exact h (k, v) (by simp)
      · exact ih (fun q hq => h q (List.mem_cons_of_mem _ hq)) p hp

/-- Non-negativity is preserved along the whole fold. -/
theorem foldl_times_nonneg (es : List RawEntry)
    (times : List (String × ℚ)) (h : ∀ p ∈ times, 0 ≤ p.2) :
    ∀ p ∈ es.foldl (fun t e => bumpTime t (speakerOf e) (durationOf e))
        times, 0 ≤ p.2 := by
  induction es generalizing times with
  | nil => simpa using h
  | cons e rest ih =>
    intro p hp
    exact ih (bumpTime times (speakerOf e) (durationOf e))
      (bumpTime_nonneg _ _ _ (durationOf_nonneg e) h) p hp

/-! ### Chunking lemmas -/

/-- `range(start, stop, step)` has `⌈(stop - start) / step⌉` elements. -/
theorem pyRangeAux_length (step : Nat) (hstep : 0 < step) :
    ∀ fuel start stop, stop - start ≤ fuel →
      (pyRangeAux step fuel start stop).length =
        ((stop - start) + step - 1) / step := by
  intro fuel
  induction fuel with
  | zero =>
    intro start stop h
    have hd : stop - start = 0 := Nat.le_zero.mp h
    simp [pyRangeAux, hd, Nat.div_eq_of_lt (by omega : step - 1 < step)]
  | succ fuel ih =>
    intro start stop h
    by_cases hlt : start < stop
    · have hrec := ih (start + step) stop (by omega)
      simp only [pyRangeAux, if_pos hlt, List.length_cons, hrec]
      by_cases hcase : stop - start ≤ step
      · have h1 : stop - (start + step) = 0 := by omega
        rw [h1]
        have h2 : (0 + step - 1) / step = 0 :=
          Nat.div_eq_of_lt (by omega)
        have h4 : 1 * step ≤ (stop - start) + step - 1 := by omega
        have h5 : ((stop - start) + step - 1) / step = 1 :=
          Nat.div_eq_of_lt_le h4 (by omega)
        omega
      · have h1 : (stop - start) + step - 1 =
            ((stop - (start + step)) + step - 1) + step := by omega
        rw [h1, Nat.add_div_right _ hstep]
    · have hd : stop - start = 0 := by omega
      simp [pyRangeAux, hlt, hd,
        Nat.div_eq_of_lt (by omega : step - 1 < step)]

/-- The window lengths `min(step, stop - s)` over `range(start, stop,
step)` total `stop - start`. -/
theorem pyRangeAux_sum (step : Nat) (hstep : 0 < step) :
    ∀ fuel start stop, stop - start ≤ fuel →
      ((pyRangeAux step fuel start stop).map
        (fun s => min step (stop - s))).sum = stop - start := by
  intro fuel
  induction fuel with
  | zero =>
    intro start stop h
    simp [pyRangeAux]
    omega
  | succ fuel ih =>
    intro start stop h
    by_cases hlt : start < stop
    · have hrec := ih (start + step) stop (by omega)
      simp only [pyRangeAux, if_pos hlt, List.map_cons, List.sum_cons, hrec]
      omega
    · simp [pyRangeAux, hlt]
      omega

/-- `leChars` is total. -/
theorem leChars_total : ∀ as bs : List Char,
    leChars as bs = true ∨ leChars bs as = true := by
  intro as
  induction as with
  | nil => intro bs; left; rfl
  | cons a as ih =>
    intro bs
    cases bs with
    | nil => right; rfl
    | cons b bs =>
      by_cases h1 : a < b
      · left; simp [leChars, h1]
      · by_cases h2 : b < a
        · right; simp [leChars, h2]
        · have hab : a = b := le_antisymm (not_lt.mp h2) (not_lt.mp h1)
          subst hab
          rcases ih bs with h | h
          · left; simp [leChars, lt_irrefl, h]
          · right; simp [leChars, lt_irrefl, h]

/-- `leChars` is transitive. -/
theorem leChars_trans : ∀ as bs cs : List Char,
    leChars as bs = true → leChars bs cs = true → leChars as cs = true := by
  intro as
  induction as with
  | nil => intros; rfl
  | cons a as ih =>
    intro bs cs h1 h2
    cases bs with
    | nil => simp [leChars] at h1
    | cons b bs =>
      cases cs with
      | nil => simp [leChars] at h2
      | cons c cs =>
        simp only [leChars] at h1 h2 ⊢
        by_cases hab : a < b
        · by_cases hbc : b < c
          · simp [lt_trans hab hbc]
          · by_cases hcb : c < b
            · simp [hbc, hcb] at h2
            · have hbceq : b = c :=
                le_antisymm (not_lt.mp hcb) (not_lt.mp hbc)
              subst hbceq
              simp [hab]
        · by_cases hba : b < a
          · simp [hab, hba] at h1
          · have habeq : a = b := le_antisymm (not_lt.mp hba) (not_lt.mp hab)
            subst habeq
            simp [lt_irrefl] at h1
            by_cases hac : a < c
            · simp [hac]
            · by_cases hca : c < a
              · simp [hac, hca] at h2
              · have haceq : a = c :=
                  le_antisymm (not_lt.mp hca) (not_lt.mp hac)
                subst haceq
                simp [lt_irrefl] at h2 ⊢
                exact ih _ _ h1 h2

/-! ### Claims -/

/-- C1: the grading parser is claimed to attempt a direct JSON parse,
then the interior of a ` ```json ` fence, then the interior of a generic
fence, else fail.  `SarvamEngine.grade_call` does exactly this (third
conjunct: it coincides with the spec-modelled parser on all inputs), but
`CallAnalytics.grade_call` (src/sarvam_engine.py line 390) keeps
`content.split("```")[0]` — the text *before* the first generic fence —
so on the response `"Here is the grading:\n```\n{}\n```"` it hands
`"Here is the grading:"` to `json.loads` and fails (first conjunct),
while the claimed parser recovers the empty JSON object from the fence
interior (second conjunct). -/
theorem c1_grade_parse_fence_divergence :
    callAnalyticsGradeCall jloadsLit
        "Here is the grading:\n```\n\x7b\x7d\n```" = none ∧
    claimedGradeParse jloadsLit
        "Here is the grading:\n```\n\x7b\x7d\n```" = some (JsonVal.obj []) ∧
    ∀ (jloads : String → Option JsonVal) (text : String),
      sarvamGradeParse jloads text = claimedGradeParse jloads text :=
  ⟨rfl, rfl, fun _ _ => rfl⟩

/-- C2: normalization consumes the documents in ascending lexical order
of file name (third and fourth conjuncts: the consumed listing is a
sorted permutation of the input listing), and the resulting entry list is
exactly the per-document contributions concatenated in document-then-entry
order (first conjunct) — hence of length `Σ kᵢ` (second conjunct) — with
no re-sorting by timestamp and independently of entry content (the
equality holds for every document and entry whatsoever). -/
theorem c2_normalization_order (files : List (String × ProviderDoc)) :
    allEntries files =
      ((sortFiles files).filter (fun p => pyEndsWith p.1 ".json")).flatMap
        (fun p => docEntries p.2) ∧
    (allEntries files).length =
      (((sortFiles files).filter (fun p => pyEndsWith p.1 ".json")).map
        (fun p => (docEntries p.2).length)).sum ∧
    List.Sorted (fun a b => pyStrLe a.1 b.1 = true) (sortFiles files) ∧
    (sortFiles files).Perm files := by
  haveI : IsTotal (String × ProviderDoc)
      (fun a b => pyStrLe a.1 b.1 = true) :=
    ⟨fun a b => leChars_total a.1.data b.1.data⟩
  haveI : IsTrans (String × ProviderDoc)
      (fun a b => pyStrLe a.1 b.1 = true) :=
    ⟨fun a b c => leChars_trans a.1.data b.1.data c.1.data⟩
  refine ⟨?_, ?_, ?_, ?_⟩
  · simpa using collectEntries_eq (sortFiles files) []
  · rw [show allEntries files = _ from by
      simpa using collectEntries_eq (sortFiles files) []]
    induction ((sortFiles files).filter (fun p => pyEndsWith p.1 ".json")) with
    | nil => simp
    | cons hd tl ih => simp [ih]
  · exact List.sorted_insertionSort _ _
  · exact List.perm_insertionSort _ _

/-- C3: every entry's duration contribution is `max(end − start, 0)`
(second conjunct: appending an entry changes exactly its speaker's total,
by that amount), an inverted interval (`end < start`) contributes exactly
`0` (first conjunct), and every cumulative value stored in the resulting
SpeakerTimingMap is non-negative (third conjunct). -/
theorem c3_duration_clamped :
    (∀ e : RawEntry, endOf e < startOf e → durationOf e = 0) ∧
    (∀ (es : List RawEntry) (e : RawEntry) (k : String),
      lookupTime (speakerTimes (es ++ [e])) k =
        lookupTime (speakerTimes es) k +
          (if speakerOf e = k then max (endOf e - startOf e) 0 else 0)) ∧
    (∀ (es : List RawEntry), ∀ p ∈ speakerTimes es, 0 ≤ p.2) := by
  refine ⟨?_, ?_, ?_⟩
  · intro e h
    have : endOf e - startOf e ≤ 0 := by linarith
    simp [durationOf, max_eq_right this]
  · intro es e k
    rw [lookupTime_speakerTimes, lookupTime_speakerTimes]
    rw [List.filter_append]
    by_cases h : speakerOf e = k
    · simp [List.filter_cons, h, durationOf]
    · simp [List.filter_cons, h]
  · intro es p hp
    have h2 : speakerTimes es =
        es.foldl (fun t e => bumpTime t (speakerOf e) (durationOf e)) [] := by
      simp [speakerTimes, buildLoop_eq]
    rw [h2] at hp
    exact foldl_times_nonneg es [] (by simp) p hp

/-- C3 witness: the concrete inverted interval `invEntry` contributes
exactly 0, and the value its one-entry map stores is non-negative. -/
theorem c3_witness :
    (endOf invEntry < startOf invEntry) ∧
    durationOf invEntry = 0 ∧
    (("A", (0 : ℚ)) ∈ speakerTimes [invEntry] ∧
      (0 : ℚ) ≤ (("A", (0 : ℚ)) : String × ℚ).2) := by
  have h1 : endOf invEntry < startOf invEntry := by
    simp [endOf, startOf, invEntry]
  have h2 := c3_duration_clamped.1 _ h1
  have h3 : ("A", (0 : ℚ)) ∈ speakerTimes [invEntry] := by
    have hst : speakerTimes [invEntry] = [("A", durationOf invEntry)] := by
      simp [speakerTimes, buildLoop, bumpTime, speakerOf, invEntry]
    rw [hst, h2]
    simp
  exact ⟨h1, h2, h3, c3_duration_clamped.2.2 _ _ h3⟩

/-- C4: a document whose diarized-entries list is absent or empty and
whose top-level `transcript` is present contributes exactly the one
fallback entry — speaker `"SPEAKER_00"`, the flat text, both timestamps
`0.0` — and a document with neither contributes nothing. -/
theorem c4_fallback_entry (d : ProviderDoc) :
    (∀ t, d.diarized_entries.getD [] = [] → d.transcript = some t →
      docEntries d =
        [{ speaker_id := some "SPEAKER_00", transcript := some t,
           start_time_seconds := some 0, end_time_seconds := some 0 }]) ∧
    (d.diarized_entries.getD [] = [] → d.transcript = none →
      docEntries d = []) := by
  constructor
  · intro t he ht
    simp [docEntries, he, ht, fallbackEntry]
  · intro he ht
    simp [docEntries, he, ht]

/-- C4 witness: a document with an empty entries list and transcript
`"hi"` yields exactly the fallback entry; a document with neither yields
nothing. -/
theorem c4_fallback_entry_witness :
    docEntries { diarized_entries := some [], transcript := some "hi" } =
      [{ speaker_id := some "SPEAKER_00", transcript := some "hi",
         start_time_seconds := some 0, end_time_seconds := some 0 }] ∧
    docEntries { diarized_entries := none, transcript := none } = [] :=
  ⟨(c4_fallback_entry _).1 "hi" rfl rfl, (c4_fallback_entry _).2 rfl rfl⟩

/-- C5 counterexample: the claim quantifies over the grading parser in
both engines, but `CallAnalytics.grade_call` applies no defaults — on the
response `"{}"` its parse succeeds and it returns the parsed empty object
unchanged (first conjunct), which carries no `grades` field at all
(second conjunct) instead of the claimed default empty list. -/
theorem c5_counterexample :
    callAnalyticsGradeCall jloadsLit "\x7b\x7d" = some (JsonVal.obj []) ∧
    jget (JsonVal.obj []) "grades" = none :=
  ⟨rfl, rfl⟩

/-- C5 (amended): in `SarvamEngine.grade_call`, every successful JSON
parse that yields an object produces a success result whose fields are
read with permissive defaults — `grades` defaults to the empty list,
`overall_score` to `0`, `summary` to the empty string — so missing fields
never fail the operation. -/
theorem c5_sarvam_grade_defaults (jloads : String → Option JsonVal)
    (text : String) (kvs : List (String × JsonVal))
    (h : sarvamGradeParse jloads text = some (.obj kvs)) :
    sarvamGradeCall jloads text =
      some
        { grades := (jlookup kvs "grades").getD (.arr [])
          overall_score := (jlookup kvs "overall_score").getD (.num 0)
          summary := (jlookup kvs "summary").getD (.str "") } := by
  simp [sarvamGradeCall, h, sarvamBuildResult]

/-- C5 witness: on the response `"{}"` (which parses to an object with
all three fields missing) `SarvamEngine.grade_call` succeeds with all
three defaults. -/
theorem c5_sarvam_grade_defaults_witness :
    sarvamGradeParse jloadsLit "\x7b\x7d" = some (JsonVal.obj []) ∧
    sarvamGradeCall jloadsLit "\x7b\x7d" =
      some { grades := JsonVal.arr [], overall_score := JsonVal.num 0,
             summary := JsonVal.str "" } :=
  ⟨rfl, c5_sarvam_grade_defaults jloadsLit "\x7b\x7d" [] rfl⟩

/-- C6: serialization produces exactly one `"speaker: text"` line per
entry, newline-joined with a trailing newline (first conjunct), and on
the spec's two-document scenario the conversation text and the timing map
come out exactly as claimed (remaining conjuncts). -/
theorem c6_serialization (es : List RawEntry) :
    conversationText es = pyJoin "\n" (es.map lineOf) ++ "\n" ∧
    (parseTranscriptions demoFiles).1 =
      "SPEAKER_00: hello\nSPEAKER_01: hi there\n" ∧
    (parseTranscriptions demoFiles).2 =
      [("SPEAKER_00", (1.5 : ℚ)), ("SPEAKER_01", (2 : ℚ))] ∧
    lookupTime (parseTranscriptions demoFiles).2 "SPEAKER_00" = 1.5 ∧
    lookupTime (parseTranscriptions demoFiles).2 "SPEAKER_01" = 2 := by
  have hall : allEntries demoFiles = [demoEntry0, demoEntry1] := rfl
  have hd0 : durationOf demoEntry0 = 1.5 := by
    rw [durationOf, max_eq_left (by norm_num [endOf, startOf, demoEntry0] :
      (0 : ℚ) ≤ endOf demoEntry0 - startOf demoEntry0)]
    norm_num [endOf, startOf, demoEntry0]
  have hd1 : durationOf demoEntry1 = 2 := by
    rw [durationOf, max_eq_left (by norm_num [endOf, startOf, demoEntry1] :
      (0 : ℚ) ≤ endOf demoEntry1 - startOf demoEntry1)]
    norm_num [endOf, startOf, demoEntry1]
  have hst : speakerTimes [demoEntry0, demoEntry1] =
      [("SPEAKER_00", durationOf demoEntry0),
        ("SPEAKER_01", durationOf demoEntry1)] := by
    simp [speakerTimes, buildLoop, bumpTime, speakerOf, demoEntry0, demoEntry1]
  have hmap : (parseTranscriptions demoFiles).2 =
      [("SPEAKER_00", (1.5 : ℚ)), ("SPEAKER_01", (2 : ℚ))] := by
    show speakerTimes (allEntries demoFiles) = _
    rw [hall, hst, hd0, hd1]
  refine ⟨?_, rfl, hmap, ?_, ?_⟩
  · simp [conversationText, conversationLines, buildLoop_eq]
  · rw [hmap]; simp [lookupTime]
  · rw [hmap]; simp [lookupTime]

/-- C7: timing aggregation is order-independent per speaker — any
permutation of the entry sequence gives every speaker the same cumulative
total. -/
theorem c7_timing_perm_invariant (es1 es2 : List RawEntry)
    (h : es1.Perm es2) (k : String) :
    lookupTime (speakerTimes es1) k = lookupTime (speakerTimes es2) k := by
  rw [lookupTime_speakerTimes, lookupTime_speakerTimes]
  exact List.Perm.sum_eq ((h.filter _).map durationOf)

/-- C7 witness: swapping two concrete entries leaves the per-speaker
totals unchanged. -/
theorem c7_timing_perm_invariant_witness :
    ([invEntry, demoEntry0].Perm [demoEntry0, invEntry]) ∧
    lookupTime (speakerTimes [invEntry, demoEntry0]) "A" =
      lookupTime (speakerTimes [demoEntry0, invEntry]) "A" :=
  ⟨List.Perm.swap _ _ _,
    c7_timing_perm_invariant _ _ (List.Perm.swap _ _ _) "A"⟩

/-- C8: for audio strictly longer than the chunk bound `D > 0`,
`split_audio` returns exactly `⌈duration / D⌉` chunk paths (first
conjunct), named `basename_chunkNNN ext` with zero-padded 3-digit indices
`0, 1, 2, …` in order — `chunkPath` spells the pattern out, preserving
the source extension with the `".wav"` default (second conjunct) — and
the exported chunks each last at most `D` (third conjunct) and together
total the original duration (fourth conjunct). -/
theorem c8_split_long (audioLen D : Nat) (audioPath outputDir : String)
    (hD : 0 < D) (hlen : D < audioLen) :
    (split_audio audioLen audioPath D outputDir).1.length =
      (audioLen + D - 1) / D ∧
    (split_audio audioLen audioPath D outputDir).1 =
      (List.range ((audioLen + D - 1) / D)).map
        (chunkPath outputDir audioPath) ∧
    (∀ q ∈ (split_audio audioLen audioPath D outputDir).2, q.2 ≤ D) ∧
    ((split_audio audioLen audioPath D outputDir).2.map Prod.snd).sum =
      audioLen := by
  have hnle : ¬ audioLen ≤ D := by omega
  have hlen0 : (pyRange 0 audioLen D).length = (audioLen + D - 1) / D := by
    have h := pyRangeAux_length D hD audioLen 0 audioLen (by omega)
    simpa [pyRange] using h
  refine ⟨?_, ?_, ?_, ?_⟩
  · simp [split_audio, hnle, hlen0]
  · simp only [split_audio, if_neg hnle]
    rw [List.map_map]
    have h1 : (Prod.fst ∘ fun p : Nat × Nat =>
        (chunkPath outputDir audioPath p.1, min D (audioLen - p.2))) =
        (chunkPath outputDir audioPath) ∘ Prod.fst := rfl
    rw [h1, ← List.map_map, List.enum_map_fst, hlen0]
  · intro q hq
    simp only [split_audio, if_neg hnle, List.mem_map] at hq
    obtain ⟨p, _, rfl⟩ := hq
    exact min_le_left _ _
  · simp only [split_audio, if_neg hnle]
    rw [List.map_map]
    have h1 : (Prod.snd ∘ fun p : Nat × Nat =>
        (chunkPath outputDir audioPath p.1, min D (audioLen - p.2))) =
        (fun s => min D (audioLen - s)) ∘ Prod.snd := rfl
    rw [h1, ← List.map_map, List.enum_map_snd]
    have h := pyRangeAux_sum D hD audioLen 0 audioLen (by omega)
    simpa [pyRange] using h

/-- C8 witness: a 5 ms file with a 2 ms bound yields 3 chunks with the
claimed names and durations 2, 2, 1. -/
theorem c8_split_long_witness :
    (0 < 2 ∧ 2 < 5) ∧
    (split_audio 5 "call.mp3" 2 "out").1.length = (5 + 2 - 1) / 2 ∧
    (split_audio 5 "call.mp3" 2 "out").1 =
      ["out/call_chunk000.mp3", "out/call_chunk001.mp3",
        "out/call_chunk002.mp3"] ∧
    (split_audio 5 "call.mp3" 2 "out").2.map Prod.snd = [2, 2, 1] := by
  refine ⟨⟨by decide, by decide⟩,
    (c8_split_long 5 2 "call.mp3" "out" (by decide) (by decide)).1, ?_, ?_⟩
  · rfl
  · rfl

/-- C9: audio no longer than the chunk bound is passed through — the
returned list is exactly `[originalPath]` and no file is written. -/
theorem c9_short_audio_identity (audioLen D : Nat)
    (audioPath outputDir : String) (h : audioLen ≤ D) :
    split_audio audioLen audioPath D outputDir = ([audioPath], []) := by
  simp [split_audio, h]

/-- C9 witness: a 3 ms file with a 10 ms bound is returned unchanged with
no writes. -/
theorem c9_short_audio_identity_witness :
    (3 ≤ 10) ∧ split_audio 3 "a.wav" 10 "out" = (["a.wav"], []) :=
  ⟨by decide, c9_short_audio_identity 3 10 "a.wav" "out" (by decide)⟩

/-- C10: the fallback keys on *presence* of the `transcript` key, not
non-emptiness — a document with no diarized entries and an empty-string
transcript still contributes exactly one fallback entry (speaker
`"SPEAKER_00"`, empty text, zero timestamps), whose serialized line is
`"SPEAKER_00: "` and whose duration contribution is 0. -/
theorem c10_empty_transcript_fallback :
    docEntries emptyDiarizedDoc = [fallbackEntry ""] ∧
    docEntries absentDiarizedDoc = [fallbackEntry ""] ∧
    fallbackEntry "" =
      { speaker_id := some "SPEAKER_00", transcript := some ""
        start_time_seconds := some 0, end_time_seconds := some 0 } ∧
    lineOf (fallbackEntry "") = "SPEAKER_00: " ∧
    durationOf (fallbackEntry "") = 0 ∧
    conversationText (allEntries [("r.json", emptyDiarizedDoc)]) =
      "SPEAKER_00: \n" ∧
    lookupTime (speakerTimes (allEntries [("r.json", emptyDiarizedDoc)]))
      "SPEAKER_00" = 0 := by
  have hdur : durationOf (fallbackEntry "") = 0 := by
    simp [durationOf, endOf, startOf, fallbackEntry]
  have hall : allEntries [("r.json", emptyDiarizedDoc)] =
      [fallbackEntry ""] := rfl
  have hst : speakerTimes [fallbackEntry ""] =
      [("SPEAKER_00", durationOf (fallbackEntry ""))] := by
    simp [speakerTimes, buildLoop, bumpTime, speakerOf, fallbackEntry]
  refine ⟨rfl, rfl, rfl, rfl, hdur, rfl, ?_⟩
  rw [hall, hst, hdur]
  simp [lookupTime]
